import Mathlib

/-!
Verification of the Mellow recorder pipeline
(`software/interface/scripts/mellow_ui.py`, class `Recorder`).

The embedding below translates the recorder's operations into pure Lean
functions over explicit state.  Sample values are modelled as rationals
(`ℚ`); every concrete sample value appearing in the claims (1.0, -1.0,
0.5, 1.5, -2.0, 0.7) is exactly representable in IEEE float32, so the
rational model agrees with the numpy computation at those points.
Python `float` (IEEE-754 binary64) arithmetic, where the spec's duration
invariant depends on it, is modelled exactly by `roundDouble` (correct
rounding to 53 significant bits, ties to even; the normal range, which
covers every value arising here, is modelled — no subnormals/overflow).
-/

-- The arithmetic of `Rat` is hidden behind `irreducible` in core; the
-- kernel ignores that, but making it semireducible lets `decide` close
-- concrete evaluations of the definitions below.
attribute [local semireducible] Rat.mul Rat.add Rat.sub Rat.inv

set_option maxRecDepth 100000

namespace Mellow

/-- Truncation toward zero: Python `int(x)` on a float, and also the
C-style cast performed by numpy's `astype(np.int16)` on in-range values. -/
def ratTrunc (q : ℚ) : ℤ :=
  if 0 ≤ q then ⌊q⌋ else ⌈q⌉

/-- Round to the nearest integer, ties to even (IEEE-754 default). -/
def rne (x : ℚ) : ℤ :=
  if x - ⌊x⌋ < 1/2 then ⌊x⌋
  else if (1:ℚ)/2 < x - ⌊x⌋ then ⌊x⌋ + 1
  else if ⌊x⌋ % 2 = 0 then ⌊x⌋ else ⌊x⌋ + 1

/-- Fuel-based binary logarithm on `ℕ` (exact for `1 ≤ n < 2^fuel`);
structural recursion keeps it kernel-reducible for `decide`. -/
def log2Fuel : ℕ → ℕ → ℕ
  | 0, _ => 0
  | f+1, n => if n ≤ 1 then 0 else log2Fuel f (n / 2) + 1

/-- The binary exponent of a positive rational: the `e` with
`2^e ≤ q < 2^(e+1)`.  A first estimate from the numerator's and
denominator's bit lengths is off by at most one and gets corrected by
direct comparison.  Fuel 128 covers every magnitude this program produces. -/
def exp2 (q : ℚ) : ℤ :=
  let e0 : ℤ := (log2Fuel 128 q.num.toNat : ℤ) - (log2Fuel 128 q.den : ℤ)
  if (2:ℚ) ^ (e0+1) ≤ q then e0 + 1 else if (2:ℚ) ^ e0 ≤ q then e0 else e0 - 1

/-- Correctly rounded IEEE-754 binary64 value of a positive rational:
scale into `[2^52, 2^53)`, round to integer with ties to even, scale back. -/
def roundDoublePos (q : ℚ) : ℚ :=
  ((rne (q * (2:ℚ) ^ (52 - exp2 q)) : ℚ)) * (2:ℚ) ^ (exp2 q - 52)

/-- Correctly rounded IEEE-754 binary64 value of a rational
(normal range; sufficient for every value arising in this program). -/
def roundDouble (q : ℚ) : ℚ :=
  if q = 0 then 0 else if 0 < q then roundDoublePos q else - roundDoublePos (-q)

/-- Double-precision product, as computed by Python on two floats. -/
def pyMul (a b : ℚ) : ℚ := roundDouble (a * b)

/-- `np.clip(x, -1.0, 1.0)` on a single sample. -/
def clip1 (x : ℚ) : ℚ := max (-1) (min 1 x)

/-- One sample through the encoder: `np.clip(pcm, -1.0, 1.0)` followed by
`(pcm * 32767).astype(np.int16)`.  The int16 cast truncates toward zero. -/
def toInt16 (x : ℚ) : ℤ := ratTrunc (clip1 x * 32767)

/-- Modelled from the spec (§4.3 WavCodec), for comparison with the code:
the spec's round-toward-nearest encoding of `sample * 32767`. -/
def roundNearestEnc (x : ℚ) : ℤ := round (clip1 x * 32767)

/-- Modelled from the spec (§4.3 WavCodec), for comparison with the code:
mono downmix by arithmetic mean across the channels of each frame. -/
def downmixMean (rows : List (List ℚ)) : List ℚ :=
  rows.map (fun row => row.sum / (row.length : ℚ))

/-- One interleaved frame: one sample per channel (a row of `indata`). -/
abbrev Frame := List ℚ

/-- One captured audio block: `indata.copy()`, a list of frames. -/
abbrev Block := List Frame

/-- Flatten a row list to interleaved int16 samples, as
`(pcm * 32767).astype(np.int16).tobytes()` lays them out. -/
def encodeRows (rows : List Frame) : List ℤ :=
  (rows.map (fun row => row.map toInt16)).flatten

/-- `pcm_i16.shape[0] / float(self.samplerate)`: Python true division of
the frame count by the samplerate, correctly rounded to a double. -/
def durationOf (F R : ℕ) : ℚ := roundDouble ((F : ℚ) / (R : ℚ))

/-- `int(duration_sec * self.samplerate)` from `Recorder._write_sidecar`:
the samplerate converts to double, the product rounds to double, `int`
truncates toward zero. -/
def sidecarFramesOf (dur : ℚ) (R : ℕ) : ℤ :=
  ratTrunc (pyMul dur (roundDouble (R : ℚ)))

/-- The WAV file produced by `Recorder._write_wav` (header fields set via
`setnchannels/setsampwidth/setframerate` plus the interleaved data). -/
structure WavFile where
  nchannels : ℕ
  sampwidth : ℕ
  framerate : ℕ
  data : List ℤ
deriving DecidableEq

/-- `Recorder._write_wav(out_path, frames)`: empty frame list writes a
header-only file and returns duration 0.0; otherwise the blocks are
concatenated along axis 0, clipped, scaled to int16 and written.  The
channel count written is `self.channels` — the code performs no downmix. -/
def writeWav (channels samplerate : ℕ) (frames : List Block) : WavFile × ℚ :=
  match frames with
  | [] => (⟨channels, 2, samplerate, []⟩, 0)
  | _ :: _ =>
    let pcm := frames.flatten
    (⟨channels, 2, samplerate, encodeRows pcm⟩, durationOf pcm.length samplerate)

/-- The sidecar metadata record written by `Recorder._write_sidecar`
(fields relevant to the claims). -/
structure Sidecar where
  samplerate : ℕ
  channels : ℕ
  frames : ℤ
  duration_sec : ℚ
  autosave : Bool
deriving DecidableEq

def mkSidecar (sr ch : ℕ) (dur : ℚ) (auto : Bool) : Sidecar :=
  ⟨sr, ch, sidecarFramesOf dur sr, dur, auto⟩

/-!
## Files on disk

One recording take produces files in `REC_DIR`:
`REC-<take>.wav`, `REC-<take>.json`, `AUTOSAVE-<take>-<tag>s.wav` and
`AUTOSAVE-<take>-<tag>s.json`.  The four basename shapes are modelled by
the four constructors below; take ids (the timestamp stems) are opaque and
modelled as naturals.  The glob `AUTOSAVE-{take}-*.wav` used by
`Recorder.stop` matches exactly the `autoWav` files of that take.
-/

inductive RecFile where
  | recWav (take : ℕ) (data : List ℤ) (nch : ℕ)
  | recJson (take : ℕ) (meta : Sidecar)
  | autoWav (take : ℕ) (tag : ℕ) (data : List ℤ)
  | autoJson (take : ℕ) (tag : ℕ) (meta : Sidecar)
deriving DecidableEq

/-- Two files occupy the same path (same basename), content aside. -/
def sameName : RecFile → RecFile → Bool
  | .recWav t _ _, .recWav u _ _ => t == u
  | .recJson t _, .recJson u _ => t == u
  | .autoWav t k _, .autoWav u l _ => t == u && k == l
  | .autoJson t k _, .autoJson u l _ => t == u && k == l
  | _, _ => false

/-- Writing a file replaces any previous file at the same path. -/
def writeFile (f : RecFile) (disk : List RecFile) : List RecFile :=
  f :: disk.filter (fun g => !sameName f g)

/-- Does the file match the glob `AUTOSAVE-<take>-*.wav`? -/
def isAutoWavOf (take : ℕ) : RecFile → Bool
  | .autoWav t _ _ => t == take
  | _ => false

/-- Is the file an autosave sidecar `AUTOSAVE-<take>-*.json`? -/
def isAutoJsonOf (take : ℕ) : RecFile → Bool
  | .autoJson t _ _ => t == take
  | _ => false

/-!
## Recorder state

The mutable attributes of a `Recorder` instance, plus the recording
directory's contents, as explicit state.  The three threads of the real
program (audio callback, autosave worker, UI) are modelled by interleaving
their atomic steps; `queue.Queue` is FIFO, so the queue is a list with
`put` appending at the tail and the drain loops taking from the head.
-/

structure RecState where
  samplerate : ℕ
  channels : ℕ
  takeName : ℕ
  q : List Block
  frames_f32 : List Block
  running : Bool
  start_ts : Option ℚ
  streamOpen : Bool
  autosaveThread : Bool
  disk : List RecFile
deriving DecidableEq

/-- `Recorder._callback`: enqueues a copy of the block while running
(blocks delivered when not running are dropped). -/
def callback (r : RecState) (b : Block) : RecState :=
  if r.running then {r with q := r.q ++ [b]} else r

/-- `Recorder.start`: clears the buffers, sets `running = True` and
`start_ts`, picks the take name, then opens the input stream and spawns
the autosave thread.  `sdOk` is false when the `sounddevice` import
failed (the guard raises before mutating anything); `streamOk` is false
when `sd.InputStream(...)`/`stream.start()` raises (device busy, missing,
permission denied, invalid config) — the exception propagates to the
caller, but the attribute mutations made before the raise persist.
The returned flag is true iff `start` returned normally. -/
def start (r : RecState) (now : ℚ) (take : ℕ) (sdOk streamOk : Bool) :
    RecState × Bool :=
  if sdOk = false then (r, false)
  else
    let r1 := {r with frames_f32 := [], q := [], running := true,
                      start_ts := some now, takeName := take}
    if streamOk = false then (r1, false)
    else ({r1 with streamOpen := true, autosaveThread := true}, true)

/-- The square of the level computed in `Recorder.poll_into_buffer`:
`rms = sqrt(mean(latest_i16 ** 2)) / 32767`, so `rms = 0` iff this mean
square is `0` (kept squared to stay inside `ℚ`). -/
def blockLevelSq (b : Block) : ℚ :=
  let vals := (b.map (fun row => row.map toInt16)).flatten
  ((vals.map (fun v => ((v : ℚ)) ^ 2)).sum / (vals.length : ℚ)) / (32767 ^ 2)

/-- `Recorder.poll_into_buffer`: drains the whole queue into
`frames_f32` (FIFO), then reports elapsed time (`0.0` when `start_ts`
is unset) and the level of the newest block (`0.0` when no block yet). -/
def pollIntoBuffer (r : RecState) (now : ℚ) : (ℚ × ℚ) × RecState :=
  let r1 := {r with frames_f32 := r.frames_f32 ++ r.q, q := []}
  let elapsed : ℚ := match r1.start_ts with | none => 0 | some t => now - t
  let levelSq : ℚ :=
    match r1.frames_f32.getLast? with | none => 0 | some b => blockLevelSq b
  ((elapsed, levelSq), r1)

/-- Result of `Recorder.stop`: the early `return None, None` when not
running, the `(wav_path, duration)` pair on success, or an exception
escaping from finalization (`_write_wav`/`_write_sidecar` raising). -/
inductive StopRes where
  | alreadyStopped
  | failed
  | finalized (duration : ℚ)
deriving DecidableEq

/-- `Recorder.stop`: returns immediately when not running; otherwise
clears `running`, drains the queue into the accumulator, closes the
stream, stops the autosave thread, writes the final WAV and sidecar and
removes the files matching `AUTOSAVE-{take}-*.wav` (`os.remove` on the
glob — only `.wav` names can match it).  `finalizeOk = false` models
`_write_wav` raising (disk full): the exception propagates before any
file is created or deleted. -/
def stop (r : RecState) (finalizeOk : Bool) : StopRes × RecState :=
  if r.running = false then (.alreadyStopped, r)
  else
    let r1 := {r with running := false, frames_f32 := r.frames_f32 ++ r.q,
                      q := [], streamOpen := false, autosaveThread := false}
    if finalizeOk = false then (.failed, r1)
    else
      let wd := writeWav r1.channels r1.samplerate r1.frames_f32
      let d1 := writeFile (.recWav r1.takeName wd.1.data wd.1.nchannels) r1.disk
      let d2 := writeFile
        (.recJson r1.takeName (mkSidecar r1.samplerate r1.channels wd.2 false)) d1
      let d3 := d2.filter (fun f => !isAutoWavOf r1.takeName f)
      (.finalized wd.2, {r1 with disk := d3})

/-- One firing of the interval body in `Recorder._autosave_worker`:
snapshot `list(self.frames_f32)`, encode it to `AUTOSAVE-<take>-<tag>s.wav`
and write the matching sidecar with `autosave=True`. -/
def autosaveCycle (r : RecState) (tag : ℕ) : RecState :=
  let wd := writeWav r.channels r.samplerate r.frames_f32
  let d1 := writeFile (.autoWav r.takeName tag wd.1.data) r.disk
  let d2 := writeFile
    (.autoJson r.takeName tag (mkSidecar r.samplerate r.channels wd.2 true)) d1
  {r with disk := d2}

/-- Outcome of one autosave interval: the writes succeed, or one of them
raises (disk full, permission denied). -/
inductive CycleOut where
  | ok
  | err
deriving DecidableEq

/-- The loop of `Recorder._autosave_worker` over a schedule of interval
outcomes.  The loop body has no exception handler, so an `err` cycle
propagates out of `_autosave_worker` and the (daemon) thread dies:
nothing after the failing interval runs.  Returns the final state, the
number of intervals attempted, and whether the loop is still alive.
The failing write is modelled as `_write_wav` raising, so the failing
cycle leaves the disk untouched. -/
def autosaveRun (r : RecState) (tag : ℕ) : List CycleOut → RecState × ℕ × Bool
  | [] => (r, 0, true)
  | .ok :: rest =>
    let res := autosaveRun (autosaveCycle r tag) (tag + 1) rest
    (res.1, res.2.1 + 1, res.2.2)
  | .err :: _ => (r, 1, false)

/-- An interleaving of capture-callback deliveries and UI poll ticks
during a take. -/
inductive Ev where
  | cb (b : Block)
  | poll (now : ℚ)

/-- Run a sequence of callback/poll events against the recorder. -/
def runEvents (r : RecState) : List Ev → RecState
  | [] => r
  | .cb b :: es => runEvents (callback r b) es
  | .poll t :: es => runEvents (pollIntoBuffer r t).2 es

/-- The blocks the hardware delivered, in delivery order. -/
def pushes : List Ev → List Block
  | [] => []
  | .cb b :: es => b :: pushes es
  | .poll _ :: es => pushes es

/-- Every frame of every block carries one sample per configured channel
(the shape `sounddevice` delivers to the callback). -/
def rowsWellFormed (ch : ℕ) (blocks : List Block) : Bool :=
  blocks.all (fun b => b.all (fun row => decide (row.length = ch)))

/-- A whole autosave schedule succeeded. -/
def allOk (cs : List CycleOut) : Bool :=
  cs.all (fun c => decide (c = CycleOut.ok))

/-- No file matching `AUTOSAVE-<take>-*.wav` is on disk. -/
def diskNoAutoWav (take : ℕ) (disk : List RecFile) : Bool :=
  disk.all (fun f => !isAutoWavOf take f)

/-- Every file of `old` selected by `p` is still present in `new`. -/
def diskKeeps (old new : List RecFile) (p : RecFile → Bool) : Bool :=
  old.all (fun f => !p f || decide (f ∈ new))

/-!
## Concrete fixtures

Small concrete runs of the model, used to instantiate hypotheses and to
exhibit counterexamples.  `rIdle` is a freshly constructed `Recorder`
(samplerate 1, one channel, nothing captured, empty recording directory).
-/

def rIdle : RecState := ⟨1, 1, 0, [], [], false, none, false, false, []⟩

/-- A session immediately after a successful `start` at t=0, take id 7. -/
def rStarted : RecState := (start rIdle 0 7 true true).1

/-- A session that captured one block `[[1.0]]` and then stopped
successfully: a finalized take. -/
def rAfterStop : RecState := (stop (callback rStarted [[1]]) true).2

/-- A running session right after its first autosave interval fired. -/
def rAuto : RecState := autosaveCycle rStarted 0

/-- The 2-channel block `[[1.0, -1.0], [0.5, 0.5]]` from the spec. -/
def stereoBlock : Block := [[1, -1], [(1:ℚ)/2, (1:ℚ)/2]]

/-- Two hardware deliveries with a UI poll in between. -/
def evsEx : List Ev := [Ev.cb [[1]], Ev.poll 1, Ev.cb [[(1:ℚ)/2]]]

/-!
## Helper lemmas
-/

lemma writeWav_fst (ch sr : ℕ) (fs : List Block) :
    (writeWav ch sr fs).1 = ⟨ch, 2, sr, encodeRows fs.flatten⟩ := by
  cases fs <;> rfl

lemma clip1_bounds (x : ℚ) : -1 ≤ clip1 x ∧ clip1 x ≤ 1 :=
  ⟨le_max_left _ _, max_le (by norm_num) (min_le_left _ _)⟩

lemma ratTrunc_err (q : ℚ) : |((ratTrunc q : ℚ)) - q| < 1 := by
  rw [ratTrunc]
  split
  · refine abs_lt.mpr ⟨?_, ?_⟩
    · have := Int.sub_one_lt_floor q
      linarith
    · have := Int.floor_le q
      linarith
  · refine abs_lt.mpr ⟨?_, ?_⟩
    · have := Int.le_ceil q
      linarith
    · have := Int.ceil_lt_add_one q
      linarith

lemma ratTrunc_bounds {q : ℚ} (h1 : -32767 ≤ q) (h2 : q ≤ 32767) :
    -32767 ≤ ratTrunc q ∧ ratTrunc q ≤ 32767 := by
  rw [ratTrunc]
  split
  · rename_i h0
    constructor
    · have : (0:ℤ) ≤ ⌊q⌋ := Int.floor_nonneg.mpr h0
      omega
    · have : ((⌊q⌋ : ℤ) : ℚ) ≤ 32767 := le_trans (Int.floor_le q) h2
      exact_mod_cast this
  · rename_i h0
    push_neg at h0
    constructor
    · have : (-32767 : ℚ) ≤ ((⌈q⌉ : ℤ) : ℚ) := le_trans h1 (Int.le_ceil q)
      exact_mod_cast this
    · have : (⌈q⌉ : ℤ) ≤ 0 := Int.ceil_le.mpr (by exact_mod_cast h0.le)
      omega

lemma encodeRows_length (rows : List Frame) (ch : ℕ)
    (h : ∀ row ∈ rows, row.length = ch) :
    (encodeRows rows).length = rows.length * ch := by
  induction rows with
  | nil => simp [encodeRows]
  | cons r rs ih =>
    have hr : r.length = ch := h r (List.mem_cons_self r rs)
    have hrs : ∀ row ∈ rs, row.length = ch :=
      fun row hrow => h row (List.mem_cons_of_mem _ hrow)
    simp only [encodeRows, List.map_cons, List.flatten_cons, List.length_append,
      List.length_map, List.length_cons, Nat.succ_mul] at ih ⊢
    rw [ih hrs, hr]
    omega

lemma mem_writeFile_of_mem {f : RecFile} (g : RecFile) {d : List RecFile}
    (hmem : f ∈ d) (hname : sameName g f = false) : f ∈ writeFile g d :=
  List.mem_cons_of_mem _ (List.mem_filter.mpr ⟨hmem, by simp [hname]⟩)

/-!
## Claims
-/

/-- C7: encoding an empty accumulator succeeds: the WAV has the
configured header fields, zero data frames, and the returned duration is
`0.0` — an empty take is not an error. -/
theorem encode_empty_valid (ch sr : ℕ) :
    writeWav ch sr [] = (⟨ch, 2, sr, []⟩, 0) ∧
    (writeWav ch sr []).1.data.length = 0 ∧ (writeWav ch sr []).2 = 0 :=
  ⟨rfl, rfl, rfl⟩

/-- C9: `stop()` on a session that is no longer running (in particular,
one already finalized by a first `stop()`) returns the `(None, None)`
sentinel, performs no re-encoding and mutates nothing: the state,
including every file on disk, is returned unchanged. -/
theorem stop_second_call_noop (r : RecState) (fOk : Bool)
    (h : r.running = false) : stop r fOk = (.alreadyStopped, r) := by
  simp [stop, h]

/-- C9 witness: a session finalized by a first `stop` rejects a second
`stop` without touching anything. -/
theorem stop_second_call_noop_witness :
    rAfterStop.running = false ∧ stop rAfterStop true = (.alreadyStopped, rAfterStop) :=
  ⟨by decide, stop_second_call_noop rAfterStop true (by decide)⟩

/-- C2 counterexample: the encoder does not implement
round-to-nearest(clamp(x)·32767): a sample of `-2.0` clamps to `-1.0` and
encodes to `-32767`, not `-32768` as claimed, and at `0.7` the
truncating cast disagrees with the claimed round-to-nearest. -/
theorem encode_round_ce :
    toInt16 (-2) = -32767 ∧ ¬(toInt16 (-2) = -32768) ∧
    ¬(toInt16 (7/10) = roundNearestEnc (7/10)) := by decide

/-- C2 (amended): the encoder converts a sample `x` to
truncation-toward-zero of `clamp(x, -1.0, 1.0) * 32767` (numpy's
`astype(np.int16)`), which stays within one of the exact scaled value and
inside `[-32767, 32767]`; a sample of `1.5` encodes to `32767` and `-2.0`
encodes to `-32767`. -/
theorem encode_clamps_and_truncates (x : ℚ) :
    -32767 ≤ toInt16 x ∧ toInt16 x ≤ 32767 ∧
    |((toInt16 x : ℚ)) - clip1 x * 32767| < 1 ∧
    toInt16 (3/2) = 32767 ∧ toInt16 (-2) = -32767 := by
  obtain ⟨hl, hu⟩ := clip1_bounds x
  have h1 : -32767 ≤ clip1 x * 32767 := by nlinarith
  have h2 : clip1 x * 32767 ≤ 32767 := by nlinarith
  obtain ⟨b1, b2⟩ := ratTrunc_bounds h1 h2
  exact ⟨b1, b2, ratTrunc_err _, by decide, by decide⟩

/-- C6 counterexample: when opening the input stream raises, the failed
`start` call leaves `running = True` — the session is not returned to the
idle state the claim describes. -/
theorem start_failure_not_idle_ce :
    (start rIdle 0 7 true false).2 = false ∧
    ((start rIdle 0 7 true false).1).running = true ∧
    ¬(((start rIdle 0 7 true false).1).running = false) := by decide

/-- C6 (amended): if the audio backend is missing, `start` raises before
mutating anything; if opening the hardware stream raises, the error
surfaces to the caller, no stream is open and no autosave thread has been
started, but the session is not reset to idle: `running` stays `True`
and `start_ts` stays set. -/
theorem start_failure_state (r : RecState) (now : ℚ) (take : ℕ)
    (hs : r.streamOpen = false) (ha : r.autosaveThread = false) :
    (start r now take false true).1 = r ∧ (start r now take false true).2 = false ∧
    (start r now take true false).2 = false ∧
    ((start r now take true false).1).running = true ∧
    ((start r now take true false).1).streamOpen = false ∧
    ((start r now take true false).1).autosaveThread = false ∧
    ((start r now take true false).1).start_ts = some now := by
  simp [start, hs, ha]

/-- C6 witness: the amended statement at a freshly constructed recorder. -/
theorem start_failure_state_witness :
    rIdle.streamOpen = false ∧ rIdle.autosaveThread = false ∧
    ((start rIdle 0 7 false true).1 = rIdle ∧ (start rIdle 0 7 false true).2 = false ∧
     (start rIdle 0 7 true false).2 = false ∧
     ((start rIdle 0 7 true false).1).running = true ∧
     ((start rIdle 0 7 true false).1).streamOpen = false ∧
     ((start rIdle 0 7 true false).1).autosaveThread = false ∧
     ((start rIdle 0 7 true false).1).start_ts = some 0) :=
  ⟨rfl, rfl, start_failure_state rIdle 0 7 rfl rfl⟩

/-- C1 counterexample: on the 2-channel block `[[1.0, -1.0], [0.5, 0.5]]`
the encoder writes channel count 2 (not 1) and the four interleaved
samples unchanged — not the claimed mono mean `[0.0, 0.5]`. -/
theorem encode_no_downmix_ce :
    (writeWav 2 16000 [stereoBlock]).1.nchannels = 2 ∧
    ¬((writeWav 2 16000 [stereoBlock]).1.nchannels = 1) ∧
    (writeWav 2 16000 [stereoBlock]).1.data = [32767, -32767, 16383, 16383] ∧
    ¬((writeWav 2 16000 [stereoBlock]).1.data
        = (downmixMean stereoBlock).map toInt16) := by decide

/-- C1 (amended): the encoder performs no downmix: the WAV header's
channel count equals the session's configured channel count, and every
frame contributes its full `channels` interleaved samples, so the data
holds `frames × channels` int16 values. -/
theorem encode_preserves_channels (ch sr : ℕ) (blocks : List Block)
    (h : rowsWellFormed ch blocks = true) :
    (writeWav ch sr blocks).1.nchannels = ch ∧
    (writeWav ch sr blocks).1.data.length = blocks.flatten.length * ch := by
  have hrow : ∀ row ∈ blocks.flatten, row.length = ch := by
    intro row hrow
    rcases List.mem_flatten.mp hrow with ⟨b, hb, hr⟩
    simp only [rowsWellFormed, List.all_eq_true, decide_eq_true_eq] at h
    exact h b hb row hr
  rw [writeWav_fst]
  exact ⟨rfl, encodeRows_length _ _ hrow⟩

/-- C1 witness: the amended statement on the concrete stereo block. -/
theorem encode_preserves_channels_witness :
    rowsWellFormed 2 [stereoBlock] = true ∧
    ((writeWav 2 16000 [stereoBlock]).1.nchannels = 2 ∧
     (writeWav 2 16000 [stereoBlock]).1.data.length = [stereoBlock].flatten.length * 2) :=
  ⟨by decide, encode_preserves_channels 2 16000 [stereoBlock] (by decide)⟩

lemma autosaveRun_preserves (cs : List CycleOut) (r : RecState) (tag : ℕ) :
    (autosaveRun r tag cs).1.frames_f32 = r.frames_f32 ∧
    (autosaveRun r tag cs).1.running = r.running ∧
    (autosaveRun r tag cs).1.q = r.q := by
  induction cs generalizing r tag with
  | nil => exact ⟨rfl, rfl, rfl⟩
  | cons c rest ih =>
    cases c with
    | ok => exact ih (autosaveCycle r tag) (tag + 1)
    | err => exact ⟨rfl, rfl, rfl⟩

/-- C5 counterexample: with the first interval's write failing and a
second interval pending, the worker attempts only one interval — the loop
dies instead of continuing to the next snapshot. -/
theorem autosave_err_not_resumed_ce :
    (autosaveRun rStarted 0 [CycleOut.err, CycleOut.ok]).2.1 = 1 ∧
    ¬((autosaveRun rStarted 0 [CycleOut.err, CycleOut.ok]).2.1 = 2) ∧
    (autosaveRun rStarted 0 [CycleOut.err, CycleOut.ok]).2.2 = false := by decide

/-- C5 (amended): a failed autosave write terminates the autosave worker
loop (the interval body has no exception handler): the failing interval
is the last one attempted and no later interval runs; the capture state
itself — accumulator, queue and running flag — is untouched, so the
recording continues, merely without further snapshots. -/
theorem autosave_failure_kills_worker (r : RecState) (tag : ℕ)
    (pre rest : List CycleOut) (hpre : allOk pre = true) :
    (autosaveRun r tag (pre ++ CycleOut.err :: rest)).2.1 = pre.length + 1 ∧
    (autosaveRun r tag (pre ++ CycleOut.err :: rest)).2.2 = false ∧
    (autosaveRun r tag (pre ++ CycleOut.err :: rest)).1.frames_f32 = r.frames_f32 ∧
    (autosaveRun r tag (pre ++ CycleOut.err :: rest)).1.running = r.running ∧
    (autosaveRun r tag (pre ++ CycleOut.err :: rest)).1.q = r.q := by
  obtain ⟨p1, p2, p3⟩ := autosaveRun_preserves (pre ++ CycleOut.err :: rest) r tag
  refine ⟨?_, ?_, p1, p2, p3⟩ <;> clear p1 p2 p3
  all_goals
    induction pre generalizing r tag with
    | nil => rfl
    | cons c pre ih =>
      simp only [allOk, List.all_cons, Bool.and_eq_true, decide_eq_true_eq] at hpre
      obtain ⟨rfl, hpre⟩ := hpre
      simpa [autosaveRun, List.cons_append] using
        ih (autosaveCycle r tag) (tag + 1) (by simpa [allOk] using hpre)

/-- C5 witness: one successful interval, then a failing one: two
intervals attempted, worker dead, capture state untouched. -/
theorem autosave_failure_kills_worker_witness :
    allOk [CycleOut.ok] = true ∧
    ((autosaveRun rStarted 0 ([CycleOut.ok] ++ CycleOut.err :: [])).2.1
        = [CycleOut.ok].length + 1 ∧
     (autosaveRun rStarted 0 ([CycleOut.ok] ++ CycleOut.err :: [])).2.2 = false ∧
     (autosaveRun rStarted 0 ([CycleOut.ok] ++ CycleOut.err :: [])).1.frames_f32
        = rStarted.frames_f32 ∧
     (autosaveRun rStarted 0 ([CycleOut.ok] ++ CycleOut.err :: [])).1.running
        = rStarted.running ∧
     (autosaveRun rStarted 0 ([CycleOut.ok] ++ CycleOut.err :: [])).1.q
        = rStarted.q) :=
  ⟨by decide, autosave_failure_kills_worker rStarted 0 [CycleOut.ok] [] (by decide)⟩

/-- C8 counterexample: on a session finalized by `stop`, `poll` does not
return zeros: `start_ts` is never cleared, so polling 5 seconds after a
start at t=0 reports elapsed 5, and the level of the last captured block
`[[1.0]]` is 1, both nonzero. -/
theorem poll_after_stop_nonzero_ce :
    rAfterStop.running = false ∧
    ((pollIntoBuffer rAfterStop 5).1).1 = 5 ∧
    ¬(((pollIntoBuffer rAfterStop 5).1).1 = 0) ∧
    ((pollIntoBuffer rAfterStop 5).1).2 = 1 ∧
    ¬(((pollIntoBuffer rAfterStop 5).1).2 = 0) := by decide

/-- C8 (amended): `poll` returns zeros on a session that has never been
started (no `start_ts`, empty queue and accumulator); after a stop it
instead reports wall-clock time since `start_ts` and the last block's
level. -/
theorem poll_zeros_before_start (r : RecState) (now : ℚ)
    (h1 : r.start_ts = none) (h2 : r.frames_f32 = []) (h3 : r.q = []) :
    (pollIntoBuffer r now).1 = (0, 0) := by
  simp [pollIntoBuffer, h1, h2, h3]

/-- C8 witness: a freshly constructed recorder polls as all zeros. -/
theorem poll_zeros_before_start_witness :
    rIdle.start_ts = none ∧ rIdle.frames_f32 = [] ∧ rIdle.q = [] ∧
    (pollIntoBuffer rIdle 5).1 = (0, 0) :=
  ⟨rfl, rfl, rfl, poll_zeros_before_start rIdle 5 rfl rfl rfl⟩

/-- C10 counterexample: with 1 frame at samplerate 49 the reported
duration is the double `0.020408163265306121…`, not exactly `1/49`, and
the sidecar's `frames` field `int(duration * 49)` evaluates to 0, not
recovering the true frame count 1. -/
theorem duration_inexact_ce :
    ¬(durationOf 1 49 = (1:ℚ)/49) ∧
    sidecarFramesOf (durationOf 1 49) 49 = 0 ∧
    ¬(sidecarFramesOf (durationOf 1 49) 49 = 1) := by decide

/-- C10 (amended): the reported duration is the IEEE-754 binary64
rounding of `frames / samplerate`, and the sidecar's `frames` field is
`int(duration * samplerate)` in binary64 arithmetic; whenever the
quotient (and the operands) are exactly representable the duration equals
`frames / samplerate` exactly and the sidecar recovers the true frame
count — but not for every frame count and samplerate. -/
theorem duration_sidecar_exact (F R : ℕ) (hR : 0 < R)
    (h1 : roundDouble ((F:ℚ)/(R:ℚ)) = (F:ℚ)/(R:ℚ))
    (h2 : roundDouble ((F:ℚ)) = (F:ℚ)) (h3 : roundDouble ((R:ℚ)) = (R:ℚ)) :
    durationOf F R = (F:ℚ)/(R:ℚ) ∧ sidecarFramesOf (durationOf F R) R = F := by
  have hd : durationOf F R = (F:ℚ)/(R:ℚ) := h1
  refine ⟨hd, ?_⟩
  rw [sidecarFramesOf, hd, h3, pyMul]
  have hR0 : (R:ℚ) ≠ 0 := Nat.cast_ne_zero.mpr hR.ne'
  rw [div_mul_cancel₀ _ hR0, h2, ratTrunc, if_pos (by positivity)]
  exact_mod_cast Int.floor_natCast F

/-- C10 witness: 1 frame at samplerate 2 — an exactly representable
quotient — reports duration `1/2` and sidecar frame count 1. -/
theorem duration_sidecar_exact_witness :
    0 < 2 ∧
    roundDouble (((1:ℕ):ℚ)/((2:ℕ):ℚ)) = ((1:ℕ):ℚ)/((2:ℕ):ℚ) ∧
    roundDouble (((1:ℕ)):ℚ) = (((1:ℕ)):ℚ) ∧
    roundDouble (((2:ℕ)):ℚ) = (((2:ℕ)):ℚ) ∧
    (durationOf 1 2 = ((1:ℕ):ℚ)/((2:ℕ):ℚ) ∧ sidecarFramesOf (durationOf 1 2) 2 = 1) :=
  ⟨by decide, by decide, by decide, by decide,
    duration_sidecar_exact 1 2 (by decide) (by decide) (by decide) (by decide)⟩

lemma stop_running (r : RecState) (h : r.running = true) :
    stop r true =
      (StopRes.finalized (writeWav r.channels r.samplerate (r.frames_f32 ++ r.q)).2,
       { r with running := false, frames_f32 := r.frames_f32 ++ r.q, q := [],
                streamOpen := false, autosaveThread := false,
                disk := (writeFile
                    (RecFile.recJson r.takeName
                      (mkSidecar r.samplerate r.channels
                        (writeWav r.channels r.samplerate (r.frames_f32 ++ r.q)).2 false))
                    (writeFile
                      (RecFile.recWav r.takeName
                        (writeWav r.channels r.samplerate (r.frames_f32 ++ r.q)).1.data
                        (writeWav r.channels r.samplerate (r.frames_f32 ++ r.q)).1.nchannels)
                      r.disk)).filter (fun f => !isAutoWavOf r.takeName f) }) := by
  have hc : ¬ (r.running = false) := by simp [h]
  simp only [stop, if_neg hc]
  rfl

lemma stop_disk (r : RecState) (h : r.running = true) :
    ((stop r true).2).disk = (writeFile
        (RecFile.recJson r.takeName
          (mkSidecar r.samplerate r.channels
            (writeWav r.channels r.samplerate (r.frames_f32 ++ r.q)).2 false))
        (writeFile
          (RecFile.recWav r.takeName
            (writeWav r.channels r.samplerate (r.frames_f32 ++ r.q)).1.data
            (writeWav r.channels r.samplerate (r.frames_f32 ++ r.q)).1.nchannels)
          r.disk)).filter (fun f => !isAutoWavOf r.takeName f) := by
  rw [stop_running r h]

lemma stop_frames (r : RecState) (h : r.running = true) :
    ((stop r true).2).frames_f32 = r.frames_f32 ++ r.q := by
  rw [stop_running r h]

lemma stop_fst (r : RecState) (h : r.running = true) :
    (stop r true).1
      = StopRes.finalized (writeWav r.channels r.samplerate (r.frames_f32 ++ r.q)).2 := by
  rw [stop_running r h]

/-- C4 counterexample: a take whose single autosave interval fired and
whose `stop()` then completed successfully still has the autosave JSON
sidecar `AUTOSAVE-<take>-0s.json` on disk — the cleanup glob matches only
`.wav` names, so not every autosave file is deleted. -/
theorem stop_leaves_autosave_json_ce :
    (stop rAuto true).1 = StopRes.finalized 0 ∧
    RecFile.autoJson 7 0 (mkSidecar 1 1 0 true) ∈ ((stop rAuto true).2).disk ∧
    isAutoJsonOf 7 (RecFile.autoJson 7 0 (mkSidecar 1 1 0 true)) = true := by decide

/-- C4 (amended): after a successful `stop()` no `AUTOSAVE-<take>-*.wav`
file remains on disk, but the autosave JSON sidecars are not deleted —
every autosave sidecar present before the stop is still present after;
if finalization itself fails, nothing is written or deleted and all
autosave files are left in place. -/
theorem stop_keeps_autosave_sidecars (r : RecState) (h : r.running = true) :
    diskNoAutoWav r.takeName ((stop r true).2).disk = true ∧
    diskKeeps r.disk ((stop r true).2).disk (isAutoJsonOf r.takeName) = true ∧
    ((stop r false).2).disk = r.disk := by
  rw [stop_disk r h]
  refine ⟨?_, ?_, by simp [stop, h]⟩
  · rw [diskNoAutoWav, List.all_eq_true]
    intro f hf
    exact (List.mem_filter.mp hf).2
  · rw [diskKeeps, List.all_eq_true]
    intro f hf
    by_cases hp : isAutoJsonOf r.takeName f = true
    · have hmem : f ∈ (writeFile
          (RecFile.recJson r.takeName
            (mkSidecar r.samplerate r.channels
              (writeWav r.channels r.samplerate (r.frames_f32 ++ r.q)).2 false))
          (writeFile
            (RecFile.recWav r.takeName
              (writeWav r.channels r.samplerate (r.frames_f32 ++ r.q)).1.data
              (writeWav r.channels r.samplerate (r.frames_f32 ++ r.q)).1.nchannels)
            r.disk)).filter (fun g => !isAutoWavOf r.takeName g) := by
        cases f with
        | autoJson t k m =>
          refine List.mem_filter.mpr ⟨?_, rfl⟩
          exact mem_writeFile_of_mem _ (mem_writeFile_of_mem _ hf rfl) rfl
        | recWav t dt n => simp [isAutoJsonOf] at hp
        | recJson t m => simp [isAutoJsonOf] at hp
        | autoWav t k dt => simp [isAutoJsonOf] at hp
      simp [hp, hmem]
    · simp [Bool.not_eq_true] at hp
      simp [hp]

/-- C4 witness: the amended statement on a session with one autosave
interval fired. -/
theorem stop_keeps_autosave_sidecars_witness :
    rAuto.running = true ∧
    (diskNoAutoWav rAuto.takeName ((stop rAuto true).2).disk = true ∧
     diskKeeps rAuto.disk ((stop rAuto true).2).disk (isAutoJsonOf rAuto.takeName) = true ∧
     ((stop rAuto false).2).disk = rAuto.disk) :=
  ⟨by decide, stop_keeps_autosave_sidecars rAuto (by decide)⟩

lemma runEvents_spec (evs : List Ev) (r : RecState) (h : r.running = true) :
    (runEvents r evs).running = true ∧
    (runEvents r evs).frames_f32 ++ (runEvents r evs).q
      = (r.frames_f32 ++ r.q) ++ pushes evs ∧
    (runEvents r evs).takeName = r.takeName ∧
    (runEvents r evs).channels = r.channels ∧
    (runEvents r evs).samplerate = r.samplerate ∧
    (runEvents r evs).disk = r.disk := by
  induction evs generalizing r with
  | nil => simp [runEvents, pushes, h]
  | cons e es ih =>
    cases e with
    | cb b =>
      have hcb : callback r b = {r with q := r.q ++ [b]} := by
        simp [callback, h]
      have hres := ih {r with q := r.q ++ [b]} h
      rw [runEvents, hcb]
      refine ⟨hres.1, ?_, hres.2.2⟩
      rw [pushes, hres.2.1]
      simp [List.append_assoc]
    | poll t =>
      have hpoll : (pollIntoBuffer r t).2
          = {r with frames_f32 := r.frames_f32 ++ r.q, q := []} := rfl
      have hres := ih {r with frames_f32 := r.frames_f32 ++ r.q, q := []} h
      rw [runEvents, hpoll]
      refine ⟨hres.1, ?_, hres.2.2⟩
      rw [pushes, hres.2.1]
      simp [List.append_assoc]

/-- C3: starting from a freshly started session, any interleaving of
hardware callback deliveries with UI polls, finished by `stop()`, moves
exactly the delivered blocks — no loss, no duplication — into the
accumulator in FIFO delivery order, and the finalized WAV on disk
contains exactly their samples encoded in that order. -/
theorem drain_fifo_no_loss (r : RecState) (evs : List Ev)
    (hrun : r.running = true) (hq : r.q = []) (hf : r.frames_f32 = []) :
    ((stop (runEvents r evs) true).2).frames_f32 = pushes evs ∧
    (stop (runEvents r evs) true).1
      = StopRes.finalized (writeWav r.channels r.samplerate (pushes evs)).2 ∧
    RecFile.recWav r.takeName (encodeRows (pushes evs).flatten) r.channels
      ∈ ((stop (runEvents r evs) true).2).disk := by
  obtain ⟨h1, h2, h3, h4, h5, h6⟩ := runEvents_spec evs r hrun
  rw [hq, hf] at h2
  simp only [List.append_nil, List.nil_append] at h2
  refine ⟨?_, ?_, ?_⟩
  · rw [stop_frames (runEvents r evs) h1]
    exact h2
  · rw [stop_fst (runEvents r evs) h1, h2, h4, h5]
  · rw [stop_disk (runEvents r evs) h1]
    have hfile :
        RecFile.recWav (runEvents r evs).takeName
          (writeWav (runEvents r evs).channels (runEvents r evs).samplerate
            ((runEvents r evs).frames_f32 ++ (runEvents r evs).q)).1.data
          (writeWav (runEvents r evs).channels (runEvents r evs).samplerate
            ((runEvents r evs).frames_f32 ++ (runEvents r evs).q)).1.nchannels
        = RecFile.recWav r.takeName (encodeRows (pushes evs).flatten) r.channels := by
      rw [h2, h3, h4, h5, writeWav_fst]
    refine List.mem_filter.mpr ⟨?_, ?_⟩
    · rw [writeFile]
      refine List.mem_cons_of_mem _ (List.mem_filter.mpr ⟨?_, ?_⟩)
      · rw [writeFile, ← hfile]
        exact List.mem_cons_self _ _
      · rw [← hfile]
        rfl
    · rw [← hfile]
      rfl

/-- C3 witness: two delivered blocks with a poll in between arrive in the
final accumulator and file in delivery order. -/
theorem drain_fifo_no_loss_witness :
    rStarted.running = true ∧ rStarted.q = [] ∧ rStarted.frames_f32 = [] ∧
    (((stop (runEvents rStarted evsEx) true).2).frames_f32 = pushes evsEx ∧
     (stop (runEvents rStarted evsEx) true).1
       = StopRes.finalized (writeWav rStarted.channels rStarted.samplerate (pushes evsEx)).2 ∧
     RecFile.recWav rStarted.takeName (encodeRows (pushes evsEx).flatten) rStarted.channels
       ∈ ((stop (runEvents rStarted evsEx) true).2).disk) :=
  ⟨by decide, by decide, by decide,
    drain_fifo_no_loss rStarted evsEx (by decide) (by decide) (by decide)⟩

end Mellow
